import Mathlib

/-!
Shallow embedding of the Hookbase MCP server's request/response adaptation
layer: the configuration resolver (src/lib/config.ts), the transport
dispatcher (src/lib/api.ts), and the tool handlers the claims mention
(src/tools/events.ts, the delivery tools, and createDestination).

JavaScript runtime behaviour relevant to the code is modelled explicitly:
truthiness of strings and JSON values, the `a || b` defaulting idiom, and
the distinction between a fetch-level exception and a completed response.
-/

namespace Hookbase

/-- JSON values as seen by the JavaScript runtime after `response.json()`.
Numbers are modelled as integers (no claim depends on float behaviour). -/
inductive Json where
  | null : Json
  | bool : Bool → Json
  | num : Int → Json
  | str : String → Json
  | arr : List Json → Json
  | obj : List (String × Json) → Json

/-- JavaScript truthiness of a JSON value. -/
def Json.truthy : Json → Bool
  | .null => false
  | .bool b => b
  | .num n => n != 0
  | .str s => s != ""
  | .arr _ => true
  | .obj _ => true

/-- Property access `j.k` on a parsed JSON object: `none` models
`undefined` (absent field or non-object receiver). -/
def Json.getField : Json → String → Option Json
  | .obj fields, k => fields.lookup k
  | _, _ => none

/-- The value of `j.k` when it is truthy, else `none` (so that
`j.k || fallback` is modelled by chaining this with a default). -/
def Json.truthyField (j : Json) (k : String) : Option Json :=
  match j.getField k with
  | some v => if v.truthy then some v else none
  | none => none

/-- JavaScript `v || dflt` for an optional string-typed value:
`undefined` and the empty string are falsy. -/
def strOr (v : Option String) (dflt : String) : String :=
  match v with
  | some s => if s = "" then dflt else s
  | none => dflt

/-- JavaScript `v || dflt` for an optional number-typed value:
`undefined` and `0` are falsy. -/
def numOr (v : Option Int) (dflt : Int) : Int :=
  match v with
  | some n => if n = 0 then dflt else n
  | none => dflt

/-- Truthiness of an optional environment-variable / string value. -/
def envTruthy : Option String → Bool
  | some s => s != ""
  | none => false

/-- `s.startsWith(p)`, expressed structurally over the character lists so
that concrete instances compute. -/
def strStartsWith (s p : String) : Bool :=
  p.data.isPrefixOf s.data

/-- `s.toLowerCase()` (both strings here are ASCII), expressed
structurally over the character list. -/
def toLowerStr (s : String) : String :=
  String.mk (s.data.map Char.toLower)

/-- `interface Config` from src/lib/config.ts. -/
structure Config where
  apiUrl : String
  apiKey : String
  orgId : String
deriving DecidableEq

/-- Outcome of reading a completed response body with `response.json()`:
either the parse throws (non-JSON body) or it yields a JSON value. -/
inductive BodyOutcome where
  | malformed (msg : String)
  | json (j : Json)

/-- Outcome of one `fetch` call: either the promise rejects (DNS failure,
connection refused, timeout, ...), carrying whether the thrown value is an
`Error` and its message, or a response with an HTTP status arrives and the
body is then read. -/
inductive FetchOutcome where
  | throwErr (isError : Bool) (msg : String)
  | response (status : Nat) (body : BodyOutcome)

/-- `interface ApiResponse<T>` from src/lib/api.ts: `data?`, `error?` and
a numeric `status`.  The `error` field holds whatever JSON value the
`data.error || data.message || fallback` chain produced. -/
structure ApiResponse where
  data? : Option Json := none
  error? : Option Json := none
  status : Nat

/-- `response.ok` per the fetch specification: status in the range 200-299. -/
def responseOk (status : Nat) : Bool :=
  decide (200 ≤ status) && decide (status < 300)

/-- `(data.error as string) || (data.message as string) || \x27Request failed\x27`
from the non-ok branch of `request`. -/
def errorFieldValue (data : Json) : Json :=
  match data.truthyField "error" with
  | some v => v
  | none =>
    match data.truthyField "message" with
    | some v => v
    | none => .str "Request failed"

/-- The `request` dispatcher of src/lib/api.ts, given the resolved
configuration and the outcome of the single `fetch` it performs.  The
`method`, `path` and `body` arguments shape the outgoing request but do
not influence how the outcome is folded into an envelope. -/
def request (cfg : Config) (method path : String) (body : Option Json)
    (outcome : FetchOutcome) : ApiResponse :=
  match outcome with
  | .throwErr isError msg =>
      { error? := some (.str (if isError then msg else "Network error")), status := 0 }
  | .response status bodyOutcome =>
    match bodyOutcome with
    | .malformed msg =>
        { error? := some (.str msg), status := 0 }
    | .json data =>
        if responseOk status then
          { data? := some data, status := status }
        else
          { error? := some (errorFieldValue data), status := status }

/-- `orgPath` from src/lib/api.ts (the `getConfig()` read is passed in as
the resolved configuration). -/
def orgPath (cfg : Config) (path : String) : String :=
  "/api/organizations/" ++ cfg.orgId ++ path

/-- A completed HTTP response carries a real HTTP status line, whose code
is at least 100; a fetch that never completed carries no status at all. -/
def completedStatusValid : FetchOutcome → Prop
  | .throwErr _ _ => True
  | .response status _ => 100 ≤ status

/-- One organization record as returned by `GET /api/auth/me`
(`Array<\x7b id: string; name: string; slug: string \x7d>` in
src/lib/config.ts). -/
structure Organization where
  id : String
  name : String
  slug : String
deriving DecidableEq

/-- The environment variables read by src/lib/config.ts.  `none` models an
unset variable. -/
structure Env where
  hookbaseApiKey : Option String := none
  hookbaseApiUrl : Option String := none
  hookbaseOrgId : Option String := none
deriving DecidableEq

/-- Outcome of reading the body of the `/api/auth/me` response, as the
code casts it: the `error` / `message` fields (read on the non-ok branch)
and the `organizations` array (read on the ok branch). -/
inductive AuthBodyOutcome where
  | malformed (msg : String)
  | parsed (errorField messageField : Option String)
      (organizations : Option (List Organization))

/-- Outcome of the single `fetch` performed by `initConfig`. -/
inductive AuthOutcome where
  | throwErr (isError : Bool) (msg : String)
  | response (status : Nat) (body : AuthBodyOutcome)

/-- The tagged result of `initConfig`: `\x7b config \x7d | \x7b error \x7d`. -/
inductive InitResult where
  | ok (config : Config)
  | err (msg : String)
deriving DecidableEq

/-- State after one run of `initConfig`: its returned value, the
`cachedConfig` module variable afterwards, and whether the `/api/auth/me`
fetch was attempted. -/
structure InitRun where
  result : InitResult
  cache : Option Config
  networkCalled : Bool
deriving DecidableEq

def missingKeyMsg : String :=
  "Missing HOOKBASE_API_KEY environment variable. Get your API key from the Hookbase dashboard."

def invalidKeyFormatMsg : String :=
  "Invalid HOOKBASE_API_KEY format. API keys should start with \"whr_\"."

def noOrganizationMsg : String := "No organizations found for this API key"

/-- `Array.prototype.join(sep)`. -/
def joinSep (sep : String) : List String → String
  | [] => ""
  | [x] => x
  | x :: y :: ys => x ++ sep ++ joinSep sep (y :: ys)

/-- One line of the multiple-organizations diagnostic:
`  - $\x7bo.name\x7d ($\x7bo.id\x7d)`. -/
def orgListEntry (o : Organization) : String :=
  "  - " ++ o.name ++ " (" ++ o.id ++ ")"

/-- The `Multiple organizations found` failure message, enumerating every
candidate organization. -/
def ambiguousOrgMsg (orgs : List Organization) : String :=
  "Multiple organizations found. Set HOOKBASE_ORG_ID to one of:\n" ++
    joinSep "\n" (orgs.map orgListEntry)

/-- `Failed to validate API key: ...` produced by the catch block of
`initConfig` (a non-`Error` thrown value yields `Network error`). -/
def networkFailMsg (isError : Bool) (msg : String) : String :=
  "Failed to validate API key: " ++ (if isError then msg else "Network error")

def defaultApiUrl : String := "https://api.hookbase.app"

/-- The `try` block of `initConfig`: the authenticated GET to
`/api/auth/me` and the case analysis on its outcome.  Every branch here
has attempted the network call. -/
def orgLookup (prev : Option Config) (apiUrl apiKey : String)
    (outcome : AuthOutcome) : InitRun :=
  match outcome with
  | .throwErr isError msg =>
      { result := .err (networkFailMsg isError msg), cache := prev, networkCalled := true }
  | .response status body =>
    match body with
    | .malformed msg =>
        -- response.json() throwing a SyntaxError is caught by the same
        -- catch block; a SyntaxError is an Error, so its message is used.
        { result := .err (networkFailMsg true msg), cache := prev, networkCalled := true }
    | .parsed errorField messageField organizations =>
      if responseOk status then
        match organizations with
        | none =>
            { result := .err noOrganizationMsg, cache := prev, networkCalled := true }
        | some [] =>
            { result := .err noOrganizationMsg, cache := prev, networkCalled := true }
        | some [o] =>
            let cfg : Config := { apiUrl := apiUrl, apiKey := apiKey, orgId := o.id }
            { result := .ok cfg, cache := some cfg, networkCalled := true }
        | some (o1 :: o2 :: rest) =>
            { result := .err (ambiguousOrgMsg (o1 :: o2 :: rest)), cache := prev, networkCalled := true }
      else
        { result := .err (strOr errorField (strOr messageField "Invalid API key")),
          cache := prev, networkCalled := true }

/-- `initConfig` from src/lib/config.ts, as a function of the prior cache
contents, the environment, and the outcome of the identity lookup (which
is consumed only if control reaches the lookup). -/
def initConfig (prev : Option Config) (env : Env) (outcome : AuthOutcome) : InitRun :=
  let apiUrl := strOr env.hookbaseApiUrl defaultApiUrl
  match env.hookbaseApiKey with
  | none =>
      { result := .err missingKeyMsg, cache := prev, networkCalled := false }
  | some apiKey =>
    if apiKey = "" then
      { result := .err missingKeyMsg, cache := prev, networkCalled := false }
    else if ¬ strStartsWith apiKey "whr_" then
      { result := .err invalidKeyFormatMsg, cache := prev, networkCalled := false }
    else
      match env.hookbaseOrgId with
      | some ov =>
        if ov = "" then
          orgLookup prev apiUrl apiKey outcome
        else
          let cfg : Config := { apiUrl := apiUrl, apiKey := apiKey, orgId := ov }
          { result := .ok cfg, cache := some cfg, networkCalled := false }
      | none => orgLookup prev apiUrl apiKey outcome

/-- `getConfig` from src/lib/config.ts: returns the cached configuration,
or throws (modelled as `none`) when resolution never succeeded. -/
def getConfig (cache : Option Config) : Option Config :=
  cache

/-- A typed view of an `ApiResponse<T>` as a tool handler consumes it:
the optional `data` payload (already cast to its declared shape), the
optional `error` string, and the status. -/
structure ToolApiResult (α : Type) where
  data? : Option α := none
  error? : Option String := none
  status : Nat
deriving DecidableEq

/-- `result.error` as used in `if (result.error)`: the error string when
it is truthy (present and non-empty), else `none`. -/
def truthyStr? (v : Option String) : Option String :=
  match v with
  | some s => if s = "" then none else some s
  | none => none

/-- The fields of `EventWithPayload` (src/lib/api.ts) that the
`hookbase_get_event_debug` handler reads. -/
structure EventRecord where
  id : String
  source_id : String
  source_name : Option String := none
  method : Option String := none
  headers : Option (List (String × String)) := none
  payload : Option Json := none
  received_at : String

/-- The fields of `Source` (src/lib/api.ts) that the debug handler reads. -/
structure SourceRecord where
  id : String
  name : String
  slug : String
deriving DecidableEq

/-- The two shapes `hookbase_get_event_debug` returns: `\x7b error \x7d`
or `\x7b eventId, sourceName, curl, note \x7d`. -/
inductive DebugResult where
  | failure (error : String)
  | success (eventId : String) (sourceName : Option String) (curl : String) (note : String)

/-- JSON string escaping used by `JSON.stringify` (quotes and
backslashes; control characters do not occur in the claims). -/
def escapeJsonString (s : String) : String :=
  String.join (s.data.map fun c =>
    if c = '\"' then "\\\"" else if c = '\\' then "\\\\" else String.singleton c)

mutual

/-- `JSON.stringify` on a JSON value. -/
def Json.render : Json → String
  | .null => "null"
  | .bool true => "true"
  | .bool false => "false"
  | .num n => toString n
  | .str s => "\"" ++ escapeJsonString s ++ "\""
  | .arr xs => "[" ++ Json.renderElems xs ++ "]"
  | .obj fs => "\x7b" ++ Json.renderFields fs ++ "\x7d"

def Json.renderElems : List Json → String
  | [] => ""
  | [x] => x.render
  | x :: y :: ys => x.render ++ "," ++ Json.renderElems (y :: ys)

def Json.renderFields : List (String × Json) → String
  | [] => ""
  | [kv] => "\"" ++ escapeJsonString kv.1 ++ "\":" ++ kv.2.render
  | kv :: kw :: ks =>
      "\"" ++ escapeJsonString kv.1 ++ "\":" ++ kv.2.render ++ "," ++
        Json.renderFields (kw :: ks)

end

/-- `payloadStr.replace(/\x27/g, "\x27\\\x27\x27")`: every single
quote becomes `\x27\\\x27\x27`. -/
def escapeSingleQuotes (s : String) : String :=
  String.join (s.data.map fun c =>
    if c = '\x27' then "\x27\\\x27\x27" else String.singleton c)

/-- Whether a header survives the filter in the debug handler: drop
`x-forwarded-*` and `host` headers (case-insensitively). -/
def keepHeader (key : String) : Bool :=
  !(strStartsWith (toLowerStr key) "x-forwarded") && toLowerStr key != "host"

/-- The ` -H \x27key: value\x27` fragment appended per kept header. -/
def headerFlag (kv : String × String) : String :=
  " \\\n  -H \x27" ++ kv.1 ++ ": " ++ kv.2 ++ "\x27"

/-- The headers portion of the generated cURL command
(`if (e.headers) for (...) ...`). -/
def curlHeaderPart (headers : Option (List (String × String))) : String :=
  match headers with
  | none => ""
  | some hs =>
      String.join (hs.filterMap fun kv =>
        if keepHeader kv.1 then some (headerFlag kv) else none)

/-- The payload portion of the generated cURL command
(`if (e.payload) ...`; a string payload is used verbatim, any other JSON
value is stringified). -/
def curlPayloadPart (payload : Option Json) : String :=
  match payload with
  | none => ""
  | some p =>
    if p.truthy then
      let payloadStr := match p with
        | .str s => s
        | _ => p.render
      " \\\n  -d \x27" ++ escapeSingleQuotes payloadStr ++ "\x27"
    else ""

/-- The cURL command assembled by `hookbase_get_event_debug`. -/
def buildCurl (cfg : Config) (e : EventRecord) (source : SourceRecord) : String :=
  let ingestUrl := cfg.apiUrl ++ "/ingest/" ++ source.slug
  "curl -X " ++ strOr e.method "POST" ++ " \x27" ++ ingestUrl ++ "\x27" ++
    curlHeaderPart e.headers ++ curlPayloadPart e.payload

def debugNoteMsg : String :=
  "This cURL command will replay the event through the ingest endpoint."

/-- The `hookbase_get_event_debug` handler (src/tools/events.ts), given
the resolved configuration and the two sequential read results: first
`api.getEvent`, then `api.getSource` on the event\x27s `source_id`.  The
`data?` field of each result wraps the `event` / `source` property of the
response payload, itself optional (`if (!e)` / `if (!source)`). -/
def getEventDebugHandler (cfg : Config)
    (eventRes : ToolApiResult (Option EventRecord))
    (sourceRes : ToolApiResult (Option SourceRecord)) : DebugResult :=
  match truthyStr? eventRes.error? with
  | some s => .failure s
  | none =>
    match eventRes.data? with
    | none => .failure "Event not found"
    | some none => .failure "Event not found"
    | some (some e) =>
      match truthyStr? sourceRes.error? with
      | some s => .failure ("Failed to fetch source: " ++ s)
      | none =>
        match sourceRes.data? with
        | none => .failure "Source not found"
        | some none => .failure "Source not found"
        | some (some source) =>
            .success e.id e.source_name (buildCurl cfg e source) debugNoteMsg

/-- Decode a JSON array as `z.array(z.string())` does: every element must
be a string. -/
def parseStringArray : List Json → Option (List String)
  | [] => some []
  | .str s :: rest => (parseStringArray rest).map (s :: ·)
  | _ => none

/-- The `hookbase_bulk_replay` input schema
`z.object(\x7b delivery_ids: z.array(z.string()).min(1).max(100) \x7d).strict()`:
a strict object whose single recognized field is a string array of length
1 to 100.  `none` models a zod validation failure. -/
def bulkReplayParseArgs (j : Json) : Option (List String) :=
  match j with
  | .obj fields =>
    if fields.all (fun kv => kv.1 = "delivery_ids") then
      match fields.lookup "delivery_ids" with
      | some (.arr elems) =>
        match parseStringArray elems with
        | some ids =>
            if 1 ≤ ids.length ∧ ids.length ≤ 100 then some ids else none
        | none => none
      | _ => none
    else none
  | _ => none

/-- The canonical argument object `\x7b delivery_ids: [...] \x7d`. -/
def mkBulkArgs (ids : List String) : Json :=
  .obj [("delivery_ids", .arr (ids.map .str))]

/-- The `\x7b replayed, failed \x7d` payload of the bulk-replay endpoint. -/
structure BulkReplayData where
  replayed? : Option Int := none
  failed? : Option Int := none
deriving DecidableEq

/-- The shapes the `hookbase_bulk_replay` invocation can produce:
rejected by schema validation, handler-level `\x7b error \x7d`, or the
success object. -/
inductive BulkReplayOutcome where
  | schemaError
  | failure (error : String)
  | success (message : String) (replayed failed : Option Int)
deriving DecidableEq

/-- Template interpolation `$\x7bv\x7d` of an optional number
(`undefined` renders as the string `undefined`). -/
def renderOptInt : Option Int → String
  | some n => toString n
  | none => "undefined"

/-- The `hookbase_bulk_replay` handler body, given the dispatcher result. -/
def bulkReplayHandler (result : ToolApiResult BulkReplayData) : BulkReplayOutcome :=
  match truthyStr? result.error? with
  | some s => .failure s
  | none =>
    let replayed := result.data?.bind (·.replayed?)
    let failed := result.data?.bind (·.failed?)
    .success ("Replayed " ++ renderOptInt replayed ++ " deliveries") replayed failed

/-- One invocation of the `hookbase_bulk_replay` tool: the MCP server
validates the arguments against the zod schema before the handler runs,
and only the handler issues the HTTP request.  The boolean records
whether an HTTP request was attempted. -/
def invokeBulkReplay (args : Json) (oracle : ToolApiResult BulkReplayData) :
    BulkReplayOutcome × Bool :=
  match bulkReplayParseArgs args with
  | none => (.schemaError, false)
  | some _ => (bulkReplayHandler oracle, true)

/-- The options object of `getEvents` (src/lib/api.ts). -/
structure GetEventsOptions where
  limit : Option Int := none
  offset : Option Int := none
  sourceId : Option String := none
  status : Option String := none
  eventType : Option String := none
  fromDate : Option String := none
  toDate : Option String := none
  search : Option String := none
deriving DecidableEq

/-- The options object of `getDeliveries` (src/lib/api.ts). -/
structure GetDeliveriesOptions where
  limit : Option Int := none
  offset : Option Int := none
  eventId : Option String := none
  routeId : Option String := none
  destinationId : Option String := none
  status : Option String := none
deriving DecidableEq

/-- `if (options?.k) params.set(name, String(options.k))` for a numeric
option: only a truthy (present, nonzero) value contributes a parameter. -/
def numParam (name : String) (v : Option Int) : List (String × String) :=
  match v with
  | some n => if n = 0 then [] else [(name, toString n)]
  | none => []

/-- `if (options?.k) params.set(name, options.k)` for a string option:
only a truthy (present, non-empty) value contributes a parameter. -/
def strParam (name : String) (v : Option String) : List (String × String) :=
  match v with
  | some s => if s = "" then [] else [(name, s)]
  | none => []

/-- The `URLSearchParams` accumulated by `getEvents`, in insertion order. -/
def eventsParams (o : GetEventsOptions) : List (String × String) :=
  numParam "limit" o.limit ++ numParam "offset" o.offset ++
  strParam "sourceId" o.sourceId ++ strParam "status" o.status ++
  strParam "eventType" o.eventType ++ strParam "fromDate" o.fromDate ++
  strParam "toDate" o.toDate ++ strParam "search" o.search

/-- The `URLSearchParams` accumulated by `getDeliveries`. -/
def deliveriesParams (o : GetDeliveriesOptions) : List (String × String) :=
  numParam "limit" o.limit ++ numParam "offset" o.offset ++
  strParam "eventId" o.eventId ++ strParam "routeId" o.routeId ++
  strParam "destinationId" o.destinationId ++ strParam "status" o.status

/-- `URLSearchParams.toString()` on the accumulated pairs. -/
def paramsToString (ps : List (String × String)) : String :=
  joinSep "&" (ps.map fun kv => kv.1 ++ "=" ++ kv.2)

/-- An outgoing HTTP request as handed to the dispatcher. -/
structure RequestDescriptor where
  method : String
  path : String
  body : Option Json := none

/-- The request issued by `getEvents`:
`GET orgPath(/events$\x7bqueryString ? ?qs : \x27\x27\x7d)`. -/
def getEventsRequest (cfg : Config) (o : GetEventsOptions) : RequestDescriptor :=
  let queryString := paramsToString (eventsParams o)
  { method := "GET",
    path := orgPath cfg ("/events" ++ (if queryString = "" then "" else "?" ++ queryString)) }

/-- The request issued by `getDeliveries`. -/
def getDeliveriesRequest (cfg : Config) (o : GetDeliveriesOptions) : RequestDescriptor :=
  let queryString := paramsToString (deliveriesParams o)
  { method := "GET",
    path := orgPath cfg ("/deliveries" ++ (if queryString = "" then "" else "?" ++ queryString)) }

/-- `[a-z0-9]`, the characters a slug keeps. -/
def isSlugChar (c : Char) : Bool :=
  (decide ('a' ≤ c) && decide (c ≤ 'z')) || (decide ('0' ≤ c) && decide (c ≤ '9'))

/-- `.replace(/[^a-z0-9]+/g, \x27-\x27)` on the character list: each
maximal run of non-slug characters becomes a single hyphen. -/
def collapseAux : List Char → List Char
  | [] => []
  | c :: rest =>
    if isSlugChar c then c :: collapseAux rest
    else '-' :: collapseAux (rest.dropWhile fun d => !(isSlugChar d))
termination_by l => l.length
decreasing_by
  · simp only [List.length_cons]; omega
  · simp only [List.length_cons]
    exact Nat.lt_succ_of_le (List.dropWhile_suffix _).length_le

/-- `.replace(/[^a-z0-9]+/g, \x27-\x27)` on a string. -/
def collapseNonSlugRuns (s : String) : String :=
  String.mk (collapseAux s.data)

/-- `.replace(/^-|-$/g, \x27\x27)`: remove the hyphen at each end, if
present.  (After run-collapsing there is at most one hyphen at each end,
which is exactly what the global regex removes.) -/
def stripEdgeHyphens (s : String) : String :=
  let l1 := match s.data with
    | '-' :: rest => rest
    | l => l
  let l2 := match l1.reverse with
    | '-' :: rest => rest.reverse
    | _ => l1
  String.mk l2

/-- The slug derived from the name in `createDestination`:
`name.toLowerCase().replace(/[^a-z0-9]+/g, \x27-\x27).replace(/^-|-$/g, \x27\x27)`. -/
def slugify (name : String) : String :=
  stripEdgeHyphens (collapseNonSlugRuns (toLowerStr name))

/-- The input object of `createDestination` (src/lib/api.ts). -/
structure CreateDestinationInput where
  name : String
  slug : Option String := none
  url : String
  method : Option String := none
  headers : Option (List (String × String)) := none
  authType : Option String := none
  authConfig : Option (List (String × String)) := none
  timeoutMs : Option Int := none
  rateLimitPerMinute : Option Int := none

/-- The request body `createDestination` sends. -/
structure DestinationRequestBody where
  name : String
  slug : String
  url : String
  method : String
  headers : Option (List (String × String))
  authType : String
  authConfig : Option (List (String × String))
  timeoutMs : Int
  rateLimitPerMinute : Option Int

/-- The body construction in `createDestination`: `data.slug || <derived>`,
`data.method || \x27POST\x27`, `data.authType || \x27none\x27`,
`data.timeoutMs || 30000`. -/
def createDestinationBody (data : CreateDestinationInput) : DestinationRequestBody :=
  let slug := strOr data.slug (slugify data.name)
  { name := data.name,
    slug := slug,
    url := data.url,
    method := strOr data.method "POST",
    headers := data.headers,
    authType := strOr data.authType "none",
    authConfig := data.authConfig,
    timeoutMs := numOr data.timeoutMs 30000,
    rateLimitPerMinute := data.rateLimitPerMinute }

/-- Modelled from the claim text rather than from the code (for
comparison with `slugify`): lowercase the name, replace each character
outside [a-z0-9] by a hyphen, collapse every run of hyphens to a single
hyphen, and strip a leading and trailing hyphen.  Replacing characters
pointwise and then collapsing hyphen runs replaces every maximal run of
characters outside [a-z0-9] with a single hyphen. -/
def collapseHyphens : List Char → List Char
  | [] => []
  | c :: rest =>
    if c = '-' then '-' :: collapseHyphens (rest.dropWhile fun d => d = '-')
    else c :: collapseHyphens rest
termination_by l => l.length
decreasing_by
  · simp only [List.length_cons]
    exact Nat.lt_succ_of_le (List.dropWhile_suffix _).length_le
  · simp only [List.length_cons]; omega

/-- The claim-side slug derivation (see `collapseHyphens`). -/
def slugSpecification (name : String) : String :=
  stripEdgeHyphens (String.mk (collapseHyphens
    ((toLowerStr name).data.map fun c => if isSlugChar c then c else '-')))

/- ======================================================================
   Theorems
   ====================================================================== -/

theorem joinSep_infix_of_mem (sep : String) (l : List String) (a : String)
    (ha : a ∈ l) : ∃ s t, joinSep sep l = s ++ a ++ t := by
  induction l with
  | nil => cases ha
  | cons x xs ih =>
    cases xs with
    | nil =>
      rcases List.mem_singleton.mp ha with rfl
      exact ⟨"", "", by simp [joinSep, String.append_empty]⟩
    | cons y ys =>
      rcases List.mem_cons.mp ha with rfl | hmem
      · exact ⟨"", sep ++ joinSep sep (y :: ys),
          by simp [joinSep, String.append_assoc]⟩
      · obtain ⟨s, t, hst⟩ := ih hmem
        exact ⟨x ++ sep ++ s, t,
          by simp [joinSep, hst, String.append_assoc]⟩

/-- C4: every envelope produced by the transport dispatcher `request`
carries exactly one of the payload and the error — never both, never
neither — and the numeric status field is always present (it is a total
field of the envelope type). -/
theorem request_envelope_exactly_one (cfg : Config) (method path : String)
    (body : Option Json) (outcome : FetchOutcome) :
    ((request cfg method path body outcome).data?.isSome = true ∧
      (request cfg method path body outcome).error? = none) ∨
    ((request cfg method path body outcome).data? = none ∧
      (request cfg method path body outcome).error?.isSome = true) := by
  cases outcome with
  | throwErr isError msg => right; simp [request]
  | response status bodyOutcome =>
    cases bodyOutcome with
    | malformed msg => right; simp [request]
    | json data =>
      by_cases h : responseOk status = true
      · left; simp [request, h]
      · right; simp [request, h]

/-- C1: when the HTTP exchange completes with a non-2xx status and a JSON
body, `request` returns a failure envelope carrying the real HTTP status
and the body\x27s `error` or `message` field (falling back to the string
`Request failed`); the envelope\x27s status is 0 only when the fetch
threw or the response body could not be read as JSON — the transport-level
failures — in which case the error is the underlying exception\x27s
message and no payload is present.  A completed response carries a real
HTTP status (at least 100), so its envelope never has status 0. -/
theorem request_failure_envelopes (cfg : Config) (method path : String)
    (body : Option Json) (outcome : FetchOutcome)
    (hvalid : completedStatusValid outcome) :
    (∀ status data, outcome = .response status (.json data) →
      responseOk status = false →
      request cfg method path body outcome =
        { data? := none, error? := some (errorFieldValue data), status := status }) ∧
    ((request cfg method path body outcome).status = 0 →
      (request cfg method path body outcome).data? = none ∧
      ((∃ isError msg, outcome = .throwErr isError msg ∧
          (request cfg method path body outcome).error? =
            some (.str (if isError then msg else "Network error"))) ∨
       (∃ status msg, outcome = .response status (.malformed msg) ∧
          (request cfg method path body outcome).error? = some (.str msg)))) := by
  constructor
  · rintro status data rfl hnotok
    simp [request, hnotok]
  · intro h0
    cases outcome with
    | throwErr isError msg =>
      refine ⟨by simp [request], .inl ⟨isError, msg, rfl, by simp [request]⟩⟩
    | response status bodyOutcome =>
      cases bodyOutcome with
      | malformed msg =>
        refine ⟨by simp [request], .inr ⟨status, msg, rfl, by simp [request]⟩⟩
      | json data =>
        exfalso
        have hge : 100 ≤ status := hvalid
        by_cases h : responseOk status = true <;>
          simp [request, h] at h0 <;> omega

/-- Witness for C1: a completed 404 with body `\x7b"error":"not found"\x7d`
yields the envelope with status 404 and error `not found`. -/
theorem request_failure_envelopes_witness :
    request ⟨"https://api.hookbase.app", "whr_k", "org1"⟩ "GET" "/x" none
        (.response 404 (.json (.obj [("error", .str "not found")]))) =
      { data? := none, error? := some (.str "not found"), status := 404 } := by
  have h := request_failure_envelopes ⟨"https://api.hookbase.app", "whr_k", "org1"⟩
    "GET" "/x" none (.response 404 (.json (.obj [("error", .str "not found")])))
    (by show (100:Nat) ≤ 404; omega)
  have h2 := h.1 404 (.obj [("error", .str "not found")]) rfl (by decide)
  rw [h2]
  rfl

/-- C3: a missing (or empty, hence falsy) credential fails with the
`MissingCredential` diagnostic, and a present credential without the
`whr_` prefix fails with the `InvalidCredentialFormat` diagnostic; both
failures happen for every lookup outcome, with no network call attempted
and the cache untouched, and the presence check is applied before the
prefix check (an empty credential yields the missing-credential message
regardless of the prefix or of any organization override). -/
theorem credential_checks_before_network (prev : Option Config) (env : Env)
    (outcome : AuthOutcome) :
    (envTruthy env.hookbaseApiKey = false →
      initConfig prev env outcome =
        { result := .err missingKeyMsg, cache := prev, networkCalled := false }) ∧
    (∀ k, env.hookbaseApiKey = some k → k ≠ "" → strStartsWith k "whr_" = false →
      initConfig prev env outcome =
        { result := .err invalidKeyFormatMsg, cache := prev, networkCalled := false }) := by
  constructor
  · intro h
    cases hk : env.hookbaseApiKey with
    | none => simp [initConfig, hk]
    | some k =>
      rw [hk] at h
      simp only [envTruthy, bne_eq_false_iff_eq] at h
      simp [initConfig, hk, h]
  · rintro k hk hne hpre
    simp [initConfig, hk, hne, hpre]

/-- Witness for C3: an absent credential, and the credential `sk_123`. -/
theorem credential_checks_before_network_witness :
    initConfig none { hookbaseApiKey := none } (.throwErr true "boom") =
      { result := .err missingKeyMsg, cache := none, networkCalled := false } ∧
    initConfig none { hookbaseApiKey := some "sk_123" } (.throwErr true "boom") =
      { result := .err invalidKeyFormatMsg, cache := none, networkCalled := false } :=
  ⟨(credential_checks_before_network none _ _).1 (by decide),
   (credential_checks_before_network none _ _).2 "sk_123" rfl (by decide) (by decide)⟩

/-- C6: with an explicit organization override in the environment and a
credential passing the presence and prefix checks, `initConfig` resolves
immediately using the override, caches the result, and never consumes the
lookup outcome (`networkCalled = false` for every outcome — in
particular, regardless of whether the remote API would have accepted the
credential). -/
theorem org_override_skips_lookup (prev : Option Config) (env : Env)
    (k ov : String) (hk : env.hookbaseApiKey = some k) (hne : k ≠ "")
    (hpre : strStartsWith k "whr_" = true)
    (hov : env.hookbaseOrgId = some ov) (hovne : ov ≠ "")
    (outcome : AuthOutcome) :
    initConfig prev env outcome =
      { result := .ok { apiUrl := strOr env.hookbaseApiUrl defaultApiUrl,
                        apiKey := k, orgId := ov },
        cache := some { apiUrl := strOr env.hookbaseApiUrl defaultApiUrl,
                        apiKey := k, orgId := ov },
        networkCalled := false } := by
  simp [initConfig, hk, hne, hpre, hov, hovne]

/-- Witness for C6: override `org_override` with a prefix-valid credential
and a lookup outcome that would have failed had it been consumed. -/
theorem org_override_skips_lookup_witness :
    initConfig none
        { hookbaseApiKey := some "whr_bad", hookbaseOrgId := some "org_override" }
        (.response 401 (.parsed (some "Invalid API key") none none)) =
      { result := .ok { apiUrl := defaultApiUrl, apiKey := "whr_bad",
                        orgId := "org_override" },
        cache := some { apiUrl := defaultApiUrl, apiKey := "whr_bad",
                        orgId := "org_override" },
        networkCalled := false } :=
  org_override_skips_lookup none _ "whr_bad" "org_override" rfl (by decide)
    (by decide) rfl (by decide) _

/-- C2: with a present, prefix-valid credential and no organization
override, `initConfig` performs the identity lookup; on a successful
response, zero organizations fail with the no-organization diagnostic,
exactly one resolves the configuration with that organization\x27s id (so
every organization-scoped path embeds it), and two or more fail with the
multiple-organizations diagnostic whose message lists every candidate\x27s
display name and identifier. -/
theorem org_autodetect_cases (prev : Option Config) (env : Env) (k : String)
    (hk : env.hookbaseApiKey = some k) (hne : k ≠ "")
    (hpre : strStartsWith k "whr_" = true)
    (hov : envTruthy env.hookbaseOrgId = false)
    (status : Nat) (hok : responseOk status = true)
    (ef mf : Option String) (orgs? : Option (List Organization)) :
    ((orgs? = none ∨ orgs? = some []) →
      initConfig prev env (.response status (.parsed ef mf orgs?)) =
        { result := .err noOrganizationMsg, cache := prev, networkCalled := true }) ∧
    (∀ o, orgs? = some [o] →
      initConfig prev env (.response status (.parsed ef mf orgs?)) =
        { result := .ok { apiUrl := strOr env.hookbaseApiUrl defaultApiUrl,
                          apiKey := k, orgId := o.id },
          cache := some { apiUrl := strOr env.hookbaseApiUrl defaultApiUrl,
                          apiKey := k, orgId := o.id },
          networkCalled := true } ∧
      ∀ p, orgPath { apiUrl := strOr env.hookbaseApiUrl defaultApiUrl,
                     apiKey := k, orgId := o.id } p =
        "/api/organizations/" ++ o.id ++ p) ∧
    (∀ o1 o2 rest, orgs? = some (o1 :: o2 :: rest) →
      initConfig prev env (.response status (.parsed ef mf orgs?)) =
        { result := .err (ambiguousOrgMsg (o1 :: o2 :: rest)), cache := prev,
          networkCalled := true } ∧
      ∀ o ∈ o1 :: o2 :: rest, ∃ s t,
        ambiguousOrgMsg (o1 :: o2 :: rest) =
          s ++ ("  - " ++ o.name ++ " (" ++ o.id ++ ")") ++ t) := by
  have hred : ∀ oc, initConfig prev env oc =
      orgLookup prev (strOr env.hookbaseApiUrl defaultApiUrl) k oc := by
    intro oc
    cases hoid : env.hookbaseOrgId with
    | none => simp [initConfig, hk, hne, hpre, hoid]
    | some ov =>
      rw [hoid] at hov
      simp only [envTruthy, bne_eq_false_iff_eq] at hov
      simp [initConfig, hk, hne, hpre, hoid, hov]
  refine ⟨?_, ?_, ?_⟩
  · rintro (rfl | rfl) <;> rw [hred] <;> simp [orgLookup, hok]
  · rintro o rfl
    rw [hred]
    exact ⟨by simp [orgLookup, hok], fun p => rfl⟩
  · rintro o1 o2 rest rfl
    rw [hred]
    refine ⟨by simp [orgLookup, hok], ?_⟩
    intro o ho
    obtain ⟨s, t, hst⟩ := joinSep_infix_of_mem "\n"
      ((o1 :: o2 :: rest).map orgListEntry) (orgListEntry o)
      (List.mem_map_of_mem orgListEntry ho)
    exact ⟨"Multiple organizations found. Set HOOKBASE_ORG_ID to one of:\n" ++ s, t,
      by simp [ambiguousOrgMsg, orgListEntry] at hst ⊢
         rw [hst]
         simp [String.append_assoc]⟩

/-- Witness for C2: a single organization resolves with its id; an empty
organization list fails with the no-organization diagnostic. -/
theorem org_autodetect_cases_witness :
    initConfig none { hookbaseApiKey := some "whr_k" }
        (.response 200 (.parsed none none (some [⟨"org_1", "Acme", "acme"⟩]))) =
      { result := .ok { apiUrl := defaultApiUrl, apiKey := "whr_k", orgId := "org_1" },
        cache := some { apiUrl := defaultApiUrl, apiKey := "whr_k", orgId := "org_1" },
        networkCalled := true } ∧
    orgPath { apiUrl := defaultApiUrl, apiKey := "whr_k", orgId := "org_1" } "/sources" =
      "/api/organizations/org_1/sources" ∧
    initConfig none { hookbaseApiKey := some "whr_k" }
        (.response 200 (.parsed none none (some []))) =
      { result := .err noOrganizationMsg, cache := none, networkCalled := true } := by
  refine ⟨?_, ?_, ?_⟩
  · exact ((org_autodetect_cases none { hookbaseApiKey := some "whr_k" } "whr_k" rfl
      (by decide) (by decide) (by decide) 200 (by decide) none none
      (some [⟨"org_1", "Acme", "acme"⟩])).2.1 ⟨"org_1", "Acme", "acme"⟩ rfl).1
  · exact ((org_autodetect_cases none { hookbaseApiKey := some "whr_k" } "whr_k" rfl
      (by decide) (by decide) (by decide) 200 (by decide) none none
      (some [⟨"org_1", "Acme", "acme"⟩])).2.1 ⟨"org_1", "Acme", "acme"⟩ rfl).2 "/sources"
  · exact (org_autodetect_cases none { hookbaseApiKey := some "whr_k" } "whr_k" rfl
      (by decide) (by decide) (by decide) 200 (by decide) none none
      (some [])).1 (Or.inr rfl)

theorem orgLookup_shape (prev : Option Config) (u kk : String)
    (outcome : AuthOutcome) :
    (∃ m, orgLookup prev u kk outcome =
        { result := .err m, cache := prev, networkCalled := true }) ∨
    (∃ c, orgLookup prev u kk outcome =
        { result := .ok c, cache := some c, networkCalled := true }) := by
  cases outcome with
  | throwErr isError msg => exact Or.inl ⟨_, rfl⟩
  | response status body =>
    cases body with
    | malformed msg => exact Or.inl ⟨_, rfl⟩
    | parsed ef mf orgs =>
      by_cases hok : responseOk status = true
      · match orgs with
        | none => exact Or.inl ⟨noOrganizationMsg, by simp [orgLookup, hok]⟩
        | some [] => exact Or.inl ⟨noOrganizationMsg, by simp [orgLookup, hok]⟩
        | some [o] =>
            exact Or.inr ⟨{ apiUrl := u, apiKey := kk, orgId := o.id },
              by simp [orgLookup, hok]⟩
        | some (o1 :: o2 :: rest) =>
            exact Or.inl ⟨ambiguousOrgMsg (o1 :: o2 :: rest),
              by simp [orgLookup, hok]⟩
      · exact Or.inl ⟨strOr ef (strOr mf "Invalid API key"),
          by simp [orgLookup, hok]⟩

theorem initConfig_shape (prev : Option Config) (env : Env)
    (outcome : AuthOutcome) :
    (∃ m nc, initConfig prev env outcome =
        { result := .err m, cache := prev, networkCalled := nc }) ∨
    (∃ c nc, initConfig prev env outcome =
        { result := .ok c, cache := some c, networkCalled := nc }) := by
  cases hk : env.hookbaseApiKey with
  | none => exact Or.inl ⟨missingKeyMsg, false, by simp [initConfig, hk]⟩
  | some k =>
    by_cases hne : k = ""
    · exact Or.inl ⟨missingKeyMsg, false, by simp [initConfig, hk, hne]⟩
    · by_cases hpre : strStartsWith k "whr_" = true
      · cases hoid : env.hookbaseOrgId with
        | none =>
          rcases orgLookup_shape prev (strOr env.hookbaseApiUrl defaultApiUrl)
              k outcome with ⟨m, hm⟩ | ⟨c, hc⟩
          · exact Or.inl ⟨m, true, by simp [initConfig, hk, hne, hpre, hoid, hm]⟩
          · exact Or.inr ⟨c, true, by simp [initConfig, hk, hne, hpre, hoid, hc]⟩
        | some ov =>
          by_cases hove : ov = ""
          · rcases orgLookup_shape prev (strOr env.hookbaseApiUrl defaultApiUrl)
                k outcome with ⟨m, hm⟩ | ⟨c, hc⟩
            · exact Or.inl ⟨m, true,
                by simp [initConfig, hk, hne, hpre, hoid, hove, hm]⟩
            · exact Or.inr ⟨c, true,
                by simp [initConfig, hk, hne, hpre, hoid, hove, hc]⟩
          · refine Or.inr
              ⟨{ apiUrl := strOr env.hookbaseApiUrl defaultApiUrl, apiKey := k, orgId := ov },
                false, ?_⟩
            simp [initConfig, hk, hne, hpre, hoid, hove]
      · exact Or.inl ⟨invalidKeyFormatMsg, false, by
          simp only [Bool.not_eq_true] at hpre
          simp [initConfig, hk, hne, hpre]⟩

/-- C5: `initConfig` always returns a tagged outcome — a configuration or
an error — for every environment and every lookup outcome (thrown network
exceptions included), and on every failure it leaves the cached
configuration exactly as it was, so resolution may be retried. -/
theorem initConfig_tagged_and_no_cache_on_failure (prev : Option Config)
    (env : Env) (outcome : AuthOutcome) :
    ((∃ c, (initConfig prev env outcome).result = .ok c) ∨
     (∃ m, (initConfig prev env outcome).result = .err m)) ∧
    (∀ m, (initConfig prev env outcome).result = .err m →
      (initConfig prev env outcome).cache = prev) := by
  rcases initConfig_shape prev env outcome with ⟨m, nc, heq⟩ | ⟨c, nc, heq⟩
  · rw [heq]
    exact ⟨Or.inr ⟨m, rfl⟩, fun m2 hm2 => rfl⟩
  · rw [heq]
    exact ⟨Or.inl ⟨c, rfl⟩, fun m2 hm2 => InitResult.noConfusion hm2⟩

/-- Witness for C5: after a failed resolution (missing credential) the
previously cached configuration is untouched. -/
theorem initConfig_tagged_witness :
    (initConfig (some ⟨"u", "k", "o"⟩) { hookbaseApiKey := none }
        (.throwErr true "boom")).cache = some ⟨"u", "k", "o"⟩ :=
  (initConfig_tagged_and_no_cache_on_failure (some ⟨"u", "k", "o"⟩)
    { hookbaseApiKey := none } (.throwErr true "boom")).2 missingKeyMsg rfl

/-- C7: when the first read of `hookbase_get_event_debug` succeeds (no
truthy error, an event present) but the second read fails with a truthy
error, the handler returns exactly the failure object built from the
source-lookup error — a value that carries no field of the event record
obtained by the first read. -/
theorem event_debug_source_error_only (cfg : Config)
    (eventRes : ToolApiResult (Option EventRecord))
    (sourceRes : ToolApiResult (Option SourceRecord)) (e : EventRecord) (m : String)
    (hEventNoErr : truthyStr? eventRes.error? = none)
    (hEvent : eventRes.data? = some (some e))
    (hSourceErr : truthyStr? sourceRes.error? = some m) :
    getEventDebugHandler cfg eventRes sourceRes =
      .failure ("Failed to fetch source: " ++ m) := by
  simp [getEventDebugHandler, hEventNoErr, hEvent, hSourceErr]

/-- Witness for C7: a found event whose source lookup returns an error. -/
theorem event_debug_source_error_only_witness :
    getEventDebugHandler ⟨defaultApiUrl, "whr_k", "org_1"⟩
        { data? := some (some { id := "evt_1", source_id := "src_1", received_at := "t0" }),
          error? := none, status := 200 }
        { data? := none, error? := some "Source not found", status := 404 } =
      .failure ("Failed to fetch source: " ++ "Source not found") :=
  event_debug_source_error_only ⟨defaultApiUrl, "whr_k", "org_1"⟩
    { data? := some (some { id := "evt_1", source_id := "src_1", received_at := "t0" }),
      error? := none, status := 200 }
    { data? := none, error? := some "Source not found", status := 404 }
    { id := "evt_1", source_id := "src_1", received_at := "t0" }
    "Source not found" rfl rfl (by decide)

theorem parseStringArray_map_str (ids : List String) :
    parseStringArray (ids.map Json.str) = some ids := by
  induction ids with
  | nil => rfl
  | cons x xs ih => simp [parseStringArray, ih]

theorem parseStringArray_all_str (elems : List Json) (ids : List String)
    (h : parseStringArray elems = some ids) : elems = ids.map Json.str := by
  induction elems generalizing ids with
  | nil =>
    simp [parseStringArray] at h
    subst h
    rfl
  | cons e rest ih =>
    cases e with
    | str s =>
      cases hp : parseStringArray rest with
      | none => simp [parseStringArray, hp] at h
      | some ys =>
        simp only [parseStringArray, hp, Option.map_some'] at h
        injection h with h2
        subst h2
        simp [ih ys hp]
    | null => simp [parseStringArray] at h
    | bool b => simp [parseStringArray] at h
    | num n => simp [parseStringArray] at h
    | arr xs => simp [parseStringArray] at h
    | obj fs => simp [parseStringArray] at h

/-- C8: the `hookbase_bulk_replay` schema accepts a `delivery_ids`
argument exactly when it is an array of 1 to 100 strings; an array of
length 0 or of length above 100 is rejected by schema validation and the
invocation performs no HTTP request. -/
theorem bulk_replay_schema_bounds :
    (∀ ids : List String, bulkReplayParseArgs (mkBulkArgs ids) =
        if 1 ≤ ids.length ∧ ids.length ≤ 100 then some ids else none) ∧
    (∀ args ids, bulkReplayParseArgs args = some ids →
        1 ≤ ids.length ∧ ids.length ≤ 100) ∧
    (∀ ids : List String, ids.length = 0 ∨ 100 < ids.length →
      ∀ oracle, invokeBulkReplay (mkBulkArgs ids) oracle = (.schemaError, false)) := by
  have hmk : ∀ ids : List String, bulkReplayParseArgs (mkBulkArgs ids) =
      if 1 ≤ ids.length ∧ ids.length ≤ 100 then some ids else none := by
    intro ids
    simp [bulkReplayParseArgs, mkBulkArgs, parseStringArray_map_str, List.lookup]
  refine ⟨hmk, ?_, ?_⟩
  · intro args ids h
    unfold bulkReplayParseArgs at h
    repeat' split at h
    all_goals first
      | exact Option.noConfusion h
      | (injection h with h2; subst h2; assumption)
  · intro ids hlen oracle
    have hnone : bulkReplayParseArgs (mkBulkArgs ids) = none := by
      rw [hmk ids, if_neg]
      rintro ⟨h1, h2⟩
      rcases hlen with h0 | h0 <;> omega
    simp [invokeBulkReplay, hnone]

/-- Witness for C8: the empty array and a 101-element array are both
rejected without an HTTP request. -/
theorem bulk_replay_schema_bounds_witness :
    invokeBulkReplay (mkBulkArgs []) { status := 200 } = (.schemaError, false) ∧
    invokeBulkReplay (mkBulkArgs (List.replicate 101 "d")) { status := 200 } =
      (.schemaError, false) :=
  ⟨bulk_replay_schema_bounds.2.2 [] (Or.inl rfl) { status := 200 },
   bulk_replay_schema_bounds.2.2 (List.replicate 101 "d")
     (Or.inr (by simp)) { status := 200 }⟩

/-- C9: a `limit` or `offset` equal to 0 contributes no query parameter
in `getEvents` and `getDeliveries`, so the issued request is identical to
the one issued when the option is not supplied at all. -/
theorem zero_pagination_omitted (cfg : Config) (o : GetEventsOptions)
    (d : GetDeliveriesOptions) :
    (o.limit = some 0 →
      getEventsRequest cfg o = getEventsRequest cfg { o with limit := none }) ∧
    (o.offset = some 0 →
      getEventsRequest cfg o = getEventsRequest cfg { o with offset := none }) ∧
    (d.limit = some 0 →
      getDeliveriesRequest cfg d = getDeliveriesRequest cfg { d with limit := none }) ∧
    (d.offset = some 0 →
      getDeliveriesRequest cfg d = getDeliveriesRequest cfg { d with offset := none }) := by
  refine ⟨fun h => ?_, fun h => ?_, fun h => ?_, fun h => ?_⟩ <;>
    simp [getEventsRequest, getDeliveriesRequest, eventsParams, deliveriesParams,
      numParam, h]

/-- Witness for C9: `limit = 0` with `offset = 25` issues the same request
as omitting `limit`; `offset = 0` alone issues the same request as no
options at all. -/
theorem zero_pagination_omitted_witness :
    getEventsRequest ⟨defaultApiUrl, "whr_k", "org_1"⟩
        { limit := some 0, offset := some 25 } =
      getEventsRequest ⟨defaultApiUrl, "whr_k", "org_1"⟩ { offset := some 25 } ∧
    getDeliveriesRequest ⟨defaultApiUrl, "whr_k", "org_1"⟩ { offset := some 0 } =
      getDeliveriesRequest ⟨defaultApiUrl, "whr_k", "org_1"⟩ {} :=
  ⟨(zero_pagination_omitted ⟨defaultApiUrl, "whr_k", "org_1"⟩
      { limit := some 0, offset := some 25 } {}).1 rfl,
   (zero_pagination_omitted ⟨defaultApiUrl, "whr_k", "org_1"⟩ {}
      { offset := some 0 }).2.2.2 rfl⟩

theorem isSlugChar_hyphen : isSlugChar '-' = false := by decide

theorem dropWhile_map_slug (rest : List Char) :
    ((rest.map fun c => if isSlugChar c then c else '-').dropWhile
        fun d => decide (d = '-')) =
      ((rest.dropWhile fun d => !(isSlugChar d)).map
        fun c => if isSlugChar c then c else '-') := by
  rw [List.dropWhile_map]
  have hp : ((fun d => decide (d = '-')) ∘ fun c => if isSlugChar c then c else '-') =
      fun d => !(isSlugChar d) := by
    funext d
    by_cases h : isSlugChar d = true
    · have hd : d ≠ '-' := by
        rintro rfl
        rw [isSlugChar_hyphen] at h
        exact Bool.noConfusion h
      simp [Function.comp, h, hd]
    · simp only [Bool.not_eq_true] at h
      simp [Function.comp, h]
  rw [hp]

theorem collapseAux_eq_spec (l : List Char) :
    collapseAux l =
      collapseHyphens (l.map fun c => if isSlugChar c then c else '-') := by
  induction l using collapseAux.induct with
  | case1 => simp [collapseAux, collapseHyphens]
  | case2 c rest hslug ih =>
    have hc : c ≠ '-' := by
      rintro rfl
      rw [isSlugChar_hyphen] at hslug
      exact Bool.noConfusion hslug
    rw [collapseAux, if_pos hslug, List.map_cons, if_pos hslug,
      collapseHyphens, if_neg hc, ih]
  | case3 c rest hslug ih =>
    simp only [Bool.not_eq_true] at hslug
    rw [collapseAux, if_neg (by simp [hslug]), List.map_cons, if_neg (by simp [hslug]),
      collapseHyphens, if_pos rfl, ih, dropWhile_map_slug]

/-- The slug derivation in the code coincides with the claim-side
description for every name. -/
theorem slugify_eq_specification (name : String) :
    slugify name = slugSpecification name := by
  unfold slugify slugSpecification collapseNonSlugRuns
  rw [collapseAux_eq_spec]

/-- C10: `createDestination` without a slug derives the slug from the
name by lowercasing, replacing every maximal run of characters outside
[a-z0-9] with a single hyphen and stripping a leading and trailing
hyphen, and defaults `method` to POST, `authType` to none, and
`timeoutMs` to 30000 when those inputs are absent. -/
theorem create_destination_defaults (data : CreateDestinationInput)
    (hslug : data.slug = none) (hmethod : data.method = none)
    (hauth : data.authType = none) (htimeout : data.timeoutMs = none) :
    (createDestinationBody data).slug = slugSpecification data.name ∧
    (createDestinationBody data).method = "POST" ∧
    (createDestinationBody data).authType = "none" ∧
    (createDestinationBody data).timeoutMs = 30000 := by
  refine ⟨?_, ?_, ?_, ?_⟩ <;>
    simp [createDestinationBody, strOr, numOr, hslug, hmethod, hauth, htimeout,
      slugify_eq_specification]

/-- Witness for C10: the destination named `My Cool App!` with no slug,
method, authType or timeoutMs supplied. -/
theorem create_destination_defaults_witness :
    (createDestinationBody { name := "My Cool App!", url := "https://x.example" }).slug =
        slugSpecification "My Cool App!" ∧
    (createDestinationBody { name := "My Cool App!", url := "https://x.example" }).method =
        "POST" ∧
    (createDestinationBody { name := "My Cool App!", url := "https://x.example" }).authType =
        "none" ∧
    (createDestinationBody { name := "My Cool App!", url := "https://x.example" }).timeoutMs =
        30000 :=
  create_destination_defaults { name := "My Cool App!", url := "https://x.example" }
    rfl rfl rfl rfl

end Hookbase
